import Mathlib

/-!
# Verification of the cmbs/leafbuild language front end

This file embeds, shallowly, the two lexers and the recursive-descent
parser of the repository:

* `LLex` — the hand-written lexer of `src/libleaf/src/grammar/lexer.rs`
  (types `Tok`, `LexicalError`, functions `parse_identifier`,
  `parse_number`, `parse_string`, and the `Iterator::next` loop).
* `Syn` — the rowan-based parser of `src/leafbuild-syntax/src/parser.rs`
  (the `SyntaxKind` stream, the checkpointable green-tree builder, the
  `Parser` state machine and every grammar function).

Machine integers (`i32` accumulators) are modelled as `Nat` bit patterns
reduced `% 2^32` at each operation, matching two's-complement wraparound.
Rust panics (`unwrap` on an exhausted iterator, `unreachable!`) are
modelled by an explicit `panicked` outcome, respectively by `Option.none`
results of the fueled interpreter.
-/

namespace LLex

/-- Byte span of a token, `TokLoc { begin, end }` from the source. -/
structure Loc where
  b : Nat
  e : Nat
deriving DecidableEq

/-- `enum Tok` of `src/libleaf/src/grammar/lexer.rs`.  The `Number`
payload is the `i32` bit pattern, kept as a `Nat < 2^32`. -/
inductive Tok where
  | newline
  | number (v : Nat) (l : Loc)
  | ident (s : String) (l : Loc)
  | str (s : String) (l : Loc)
  | add (l : Loc)
  | sub (l : Loc)
  | mul (l : Loc)
  | div (l : Loc)
  | mod (l : Loc)
  | addEq (l : Loc)
  | subEq (l : Loc)
  | mulEq (l : Loc)
  | divEq (l : Loc)
  | modEq (l : Loc)
  | eq (l : Loc)
  | popen (l : Loc)
  | pclose (l : Loc)
  | colon (l : Loc)
  | comma (l : Loc)
  | dot (l : Loc)
deriving DecidableEq

/-- `enum LexicalError` of the source. -/
inductive LexicalError where
  | unrecognizedToken (location : Nat)
  | stringStartedButNotEnded (startLoc : Nat)
deriving DecidableEq

/-- One outcome of `Lexer::next`: `Some(Ok(span))`, `Some(Err(e))`,
`None` (end of iteration), or a Rust panic (`unwrap` of `None`). -/
inductive Step where
  | tok (st : Nat) (t : Tok) (en : Nat)
  | err (e : LexicalError)
  | eof
  | panicked
deriving DecidableEq

/-- `char_indices` of a string: each character paired with its byte
offset, as Rust's `CharIndices` yields them. -/
def charIndicesGo : Nat → List Char → List (Nat × Char)
  | _, [] => []
  | pos, c :: r => (pos, c) :: charIndicesGo (pos + c.utf8Size) r

def charIndices (s : String) : List (Nat × Char) :=
  charIndicesGo 0 s.data

/-- Rust `u8` arithmetic of the source's digit-value helpers. -/
def decdigit_value (c : Char) : Nat := c.toNat - 48

def octdigit_value (c : Char) : Nat := c.toNat - 48

/-- `Lexer::hexdigit_value`, translated exactly: note that the
`b'a'..=b'f'` and `b'A'..=b'F'` arms return `chr - b'a'` and
`chr - b'A'` — without adding 10. -/
def hexdigit_value (c : Char) : Nat :=
  let n := c.toNat
  if 48 ≤ n ∧ n ≤ 57 then n - 48
  else if 97 ≤ n ∧ n ≤ 102 then n - 97
  else if 65 ≤ n ∧ n ≤ 70 then n - 65
  else 0

def isAsciiDigit (c : Char) : Bool := decide (48 ≤ c.toNat ∧ c.toNat ≤ 57)

def isOctDigit (c : Char) : Bool := decide (48 ≤ c.toNat ∧ c.toNat ≤ 55)

def isAsciiHexDigit (c : Char) : Bool :=
  decide ((48 ≤ c.toNat ∧ c.toNat ≤ 57) ∨ (97 ≤ c.toNat ∧ c.toNat ≤ 102)
    ∨ (65 ≤ c.toNat ∧ c.toNat ≤ 70))

def isAsciiAlphabetic (c : Char) : Bool :=
  decide ((65 ≤ c.toNat ∧ c.toNat ≤ 90) ∨ (97 ≤ c.toNat ∧ c.toNat ≤ 122))

def isIdentContinue (c : Char) : Bool :=
  isAsciiAlphabetic c || isAsciiDigit c || decide (c = '_')

/-- The modulus of `i32` bit patterns. -/
def M : Nat := 4294967296

/-- The shared shape of the three digit-accumulation loops inside
`Lexer::parse_number` (hex `*16`, oct `*8`, dec `*10`): peek, accumulate
with `i32` wraparound while the peeked character passes `test`, and stop
at the first failing character (its position) or at end of input (the
input length).  Returns `(num, end_position, remaining chars)`. -/
def numLoop (len : Nat) (test : Char → Bool) (dv : Char → Nat) (base : Nat) :
    List (Nat × Char) → Nat → Nat × Nat × List (Nat × Char)
  | [], num => (num, len, [])
  | (p, c) :: r, num =>
    if test c then numLoop len test dv base r ((num * base + dv c) % M)
    else (num, p, (p, c) :: r)

/-- `Lexer::parse_number`.  `chars` is the iterator state after the
initial digit has been consumed; `len` is `self.input.len()`. -/
def parse_number (len : Nat) (chars : List (Nat × Char))
    (initialPosition : Nat) (initialChar : Char) : Step × List (Nat × Char) :=
  match chars with
  | [] =>
    (Step.tok initialPosition
      (Tok.number (decdigit_value initialChar)
        ⟨initialPosition, initialPosition + 1⟩)
      (initialPosition + 1), [])
  | (i, c) :: rest =>
    if initialChar = '0' then
      if c = 'x' then
        -- the 'x' is taken out of the stream, accumulation starts at 0
        let r := numLoop len isAsciiHexDigit hexdigit_value 16 rest 0
        (Step.tok initialPosition
          (Tok.number r.1 ⟨initialPosition, r.2.1⟩) r.2.1, r.2.2)
      else
        -- octal: the peeked character is not consumed before the loop
        let r := numLoop len isOctDigit octdigit_value 8 ((i, c) :: rest) 0
        (Step.tok initialPosition
          (Tok.number r.1 ⟨initialPosition, r.2.1⟩) r.2.1, r.2.2)
    else
      let r := numLoop len isAsciiDigit decdigit_value 10 ((i, c) :: rest)
        (decdigit_value initialChar)
      (Step.tok initialPosition
        (Tok.number r.1 ⟨initialPosition, r.2.1⟩) r.2.1, r.2.2)

/-- The `peeking_take_while` of `parse_identifier`, with its
`next_position` side effect: the closure records the position of every
peeked character (also of the one that fails the test). -/
def identTake : List (Nat × Char) → Nat → List Char × Nat × List (Nat × Char)
  | [], np => ([], np, [])
  | (p, c) :: r, _ =>
    if isIdentContinue c then
      let t := identTake r p
      (c :: t.1, t.2)
    else ([], p, (p, c) :: r)

/-- `Lexer::parse_identifier`. -/
def parse_identifier (chars : List (Nat × Char)) (initialPosition : Nat)
    (initialLetter : Char) : Step × List (Nat × Char) :=
  let t := identTake chars (initialPosition + 1)
  (Step.tok initialPosition
    (Tok.ident (String.mk (initialLetter :: t.1)) ⟨initialPosition, t.2.1⟩)
    t.2.1, t.2.2)

/-- The `peeking_take_while` of the multiline-string branch, with its
two-character `prev` buffer: consume until the current character is `'`
and both previous characters were `'`. -/
def mlTake : List (Nat × Char) → Char × Char → List Char × List (Nat × Char)
  | [], _ => ([], [])
  | (p, c) :: r, prev =>
    if c ≠ '\'' ∨ prev.1 ≠ '\'' ∨ prev.2 ≠ '\'' then
      let t := mlTake r (prev.2, c)
      (c :: t.1, t.2)
    else ([], (p, c) :: r)

/-- The `peeking_take_while` of the single-quote branch, with its
`last_index` side effect (initialised to 0, set per consumed char). -/
def sTake : List (Nat × Char) → Nat → List Char × Nat × List (Nat × Char)
  | [], li => ([], li, [])
  | (p, c) :: r, li =>
    if c ≠ '\'' then
      let t := sTake r p
      (c :: t.1, t.2)
    else ([], li, (p, c) :: r)

/-- `Lexer::parse_string`.  `chars` is the state after the opening `'`
has been consumed.  The multiline branch ends with
`self.chars.next().unwrap()`; when the iterator is already exhausted this
is a Rust panic, modelled as `Step.panicked`. -/
def parse_string (chars : List (Nat × Char)) (initialPosition : Nat) :
    Step × List (Nat × Char) :=
  match chars with
  | [] => (Step.err (LexicalError.stringStartedButNotEnded initialPosition), [])
  | (i1, c1) :: rest1 =>
    if c1 = '\'' then
      -- second quote consumed
      match rest1 with
      | (i2, c2) :: rest2 =>
        if c2 = '\'' then
          -- multiline string: third quote consumed, then take content
          let t := mlTake rest2 ('0', '0')
          match t.2 with
          | [] => (Step.panicked, [])
          | (q, _) :: rest3 =>
            -- pop the final two quotes from the collected content
            let s := (t.1.dropLast).dropLast
            (Step.tok initialPosition
              (Tok.str (String.mk s) ⟨initialPosition, q + 1⟩) (q + 1), rest3)
        else
          (Step.tok initialPosition
            (Tok.str "" ⟨initialPosition, initialPosition + 2⟩)
            (initialPosition + 2), (i2, c2) :: rest2)
      | [] =>
        (Step.tok initialPosition
          (Tok.str "" ⟨initialPosition, initialPosition + 2⟩)
          (initialPosition + 2), [])
    else
      -- simple ' ... ' string
      let t := sTake ((i1, c1) :: rest1) 0
      let rest' := match t.2.2 with
        | [] => []
        | _ :: r => r
      (Step.tok initialPosition
        (Tok.str (String.mk t.1) ⟨initialPosition, t.2.1 + 2⟩)
        (t.2.1 + 2), rest')

/-- `<Lexer as Iterator>::next`: the dispatch loop, skipping whitespace
(newline first, as in the source).  `len` is `self.input.len()`. -/
def lexNext (len : Nat) : List (Nat × Char) → Step × List (Nat × Char)
  | [] => (Step.eof, [])
  | (i, c) :: rest =>
    if c = '\n' then (Step.tok i Tok.newline (i + 1), rest)
    else if c.isWhitespace then lexNext len rest
    else if c = ':' then (Step.tok i (Tok.colon ⟨i, i + 1⟩) (i + 1), rest)
    else if c = ',' then (Step.tok i (Tok.comma ⟨i, i + 1⟩) (i + 1), rest)
    else if c = '.' then (Step.tok i (Tok.dot ⟨i, i + 1⟩) (i + 1), rest)
    else if c = '(' then (Step.tok i (Tok.popen ⟨i, i + 1⟩) (i + 1), rest)
    else if c = ')' then (Step.tok i (Tok.pclose ⟨i, i + 1⟩) (i + 1), rest)
    else if c = '+' then
      match rest with
      | (_, '=') :: r2 => (Step.tok i (Tok.addEq ⟨i, i + 2⟩) (i + 2), r2)
      | _ => (Step.tok i (Tok.add ⟨i, i + 1⟩) (i + 1), rest)
    else if c = '-' then
      match rest with
      | (_, '=') :: r2 => (Step.tok i (Tok.subEq ⟨i, i + 2⟩) (i + 2), r2)
      | _ => (Step.tok i (Tok.sub ⟨i, i + 1⟩) (i + 1), rest)
    else if c = '*' then
      match rest with
      | (_, '=') :: r2 => (Step.tok i (Tok.mulEq ⟨i, i + 2⟩) (i + 2), r2)
      | _ => (Step.tok i (Tok.mul ⟨i, i + 1⟩) (i + 1), rest)
    else if c = '/' then
      match rest with
      | (_, '=') :: r2 => (Step.tok i (Tok.divEq ⟨i, i + 2⟩) (i + 2), r2)
      | _ => (Step.tok i (Tok.div ⟨i, i + 1⟩) (i + 1), rest)
    else if c = '%' then
      match rest with
      | (_, '=') :: r2 => (Step.tok i (Tok.modEq ⟨i, i + 2⟩) (i + 2), r2)
      | _ => (Step.tok i (Tok.mod ⟨i, i + 1⟩) (i + 1), rest)
    else if c = '=' then
      -- the '=' arm of the source returns a single `Tok::Eq` directly,
      -- with no peek for a following '='
      (Step.tok i (Tok.eq ⟨i, i + 1⟩) (i + 1), rest)
    else if isAsciiAlphabetic c || c = '_' then parse_identifier rest i c
    else if isAsciiDigit c then parse_number len rest i c
    else if c = '\'' then parse_string rest i
    else (Step.err (LexicalError.unrecognizedToken i), rest)

/-- Run the lexer to completion (or until a panic), collecting every
yielded item.  `fuel` bounds the number of `next` calls; each call except
the last consumes at least one character, so `chars.length + 1` always
suffices for the inputs below. -/
def lexList (fuel len : Nat) (chars : List (Nat × Char)) : List Step :=
  match fuel with
  | 0 => []
  | fuel + 1 =>
    match lexNext len chars with
    | (Step.eof, _) => []
    | (Step.panicked, _) => [Step.panicked]
    | (s, rest) => s :: lexList fuel len rest

/-- Lex a whole string. -/
def lexString (s : String) : List Step :=
  lexList (s.length + 1) s.utf8ByteSize (charIndices s)

end LLex

namespace Syn

/-- The closed kind enumeration shared by lexical token kinds and
syntactic node kinds.  The token and node constructors are exactly the
ones `src/leafbuild-syntax/src/parser.rs` matches on. -/
inductive SyntaxKind where
  | WHITESPACE | LINE_COMMENT | BLOCK_COMMENT | NEWLINE
  | L_PAREN | R_PAREN | L_BRACKET | R_BRACKET | L_BRACE | R_BRACE
  | PLUS | MINUS | ASTERISK | SLASH | PERCENT
  | PLUS_EQ | MINUS_EQ | MUL_EQ | DIV_EQ | MOD_EQ
  | EQ | EQ_EQ | NOT_EQ | LESS | LESS_EQ | GREATER | GREATER_EQ
  | SHIFT_LEFT | SHIFT_RIGHT
  | DOT | COLON | QMARK | SEMICOLON | COMMA | TILDE
  | AND_KW | OR_KW | NOT_KW | IN_KW | FN_KW | ELSE_KW | LET_KW | IF_KW
  | FOREACH_KW | CONTINUE_KW | BREAK_KW | RETURN_KW | TRUE_KW | FALSE_KW
  | NUMBER | ID | STRING | MULTILINE_STRING | ERROR
  | ROOT | Expr | Assignment | PrimaryExpr | ArrayLitExpr | TupleExpr
  | StrLit | FuncCallExpr | FuncCallArgs | KExpr | IndexedExpr
  | IndexedExprBrackets | PrefixUnaryOpExpr | InfixBinOpExpr | ExprBlock
  | Declaration | Conditional | ConditionalBranch | Foreach
  | ControlStatement
deriving DecidableEq

open SyntaxKind

/-- Half-open byte span `[s, e)`; `Span::default()` is `⟨0, 0⟩`. -/
structure Span where
  s : Nat
  e : Nat
deriving DecidableEq

/-- One raw token of the lexer output: `(SyntaxKind, &str, Span)`. -/
structure RawTok where
  kind : SyntaxKind
  text : String
  span : Span
deriving DecidableEq

/-- `Trivia::is_trivia`. -/
def is_trivia (k : SyntaxKind) : Bool :=
  k = WHITESPACE || k = LINE_COMMENT || k = BLOCK_COMMENT

/-- `Trivia::is_newline`. -/
def is_newline (k : SyntaxKind) : Bool := k = NEWLINE

/-- `Trivia::is_meaningful`. -/
def is_meaningful (k : SyntaxKind) : Bool := !is_trivia k && !is_newline k

/-- `SyntaxKind::token_name`.  Modelled from the spec: the function lives
in the crate's `syntax_kind` module, which is not part of the sources;
only its use in diagnostics is observable.  Theorems below depend only on
the count of diagnostics, never on these strings. -/
def token_name (k : SyntaxKind) : String :=
  match k with
  | L_PAREN => "(" | R_PAREN => ")" | L_BRACKET => "[" | R_BRACKET => "]"
  | L_BRACE => "\x7b" | R_BRACE => "\x7d"
  | PLUS => "+" | MINUS => "-" | ASTERISK => "*" | SLASH => "/"
  | PERCENT => "%" | PLUS_EQ => "+=" | MINUS_EQ => "-=" | MUL_EQ => "*="
  | DIV_EQ => "/=" | MOD_EQ => "%=" | EQ => "=" | EQ_EQ => "=="
  | NOT_EQ => "!=" | LESS => "<" | LESS_EQ => "<=" | GREATER => ">"
  | GREATER_EQ => ">=" | SHIFT_LEFT => "<<" | SHIFT_RIGHT => ">>"
  | DOT => "." | COLON => ":" | QMARK => "?" | SEMICOLON => ";"
  | COMMA => "," | TILDE => "~" | NEWLINE => "newline"
  | NUMBER => "number" | ID => "identifier" | STRING => "string"
  | MULTILINE_STRING => "multiline string" | ERROR => "error"
  | _ => "token"

/-- Keyword recognition for identifier-shaped lexemes.  Modelled from the
spec: §6 requires one tag per keyword; the keyword set is the one the
parser's dispatch (`parse_statement`, precedence levels 8/9, `parse_tt`
callers) consumes. -/
def kwKind (s : String) : SyntaxKind :=
  if s = "and" then AND_KW
  else if s = "or" then OR_KW
  else if s = "not" then NOT_KW
  else if s = "in" then IN_KW
  else if s = "fn" then FN_KW
  else if s = "else" then ELSE_KW
  else if s = "let" then LET_KW
  else if s = "if" then IF_KW
  else if s = "foreach" then FOREACH_KW
  else if s = "continue" then CONTINUE_KW
  else if s = "break" then BREAK_KW
  else if s = "return" then RETURN_KW
  else if s = "true" then TRUE_KW
  else if s = "false" then FALSE_KW
  else ID

def utf8Len (l : List Char) : Nat := l.foldl (fun a c => a + c.utf8Size) 0

def isWsNotNl (c : Char) : Bool := c.isWhitespace && !(c = '\n')

def isDigitC (c : Char) : Bool := decide (48 ≤ c.toNat ∧ c.toNat ≤ 57)

def isHexC (c : Char) : Bool :=
  isDigitC c || decide (97 ≤ c.toNat ∧ c.toNat ≤ 102)
    || decide (65 ≤ c.toNat ∧ c.toNat ≤ 70)

def isAlphaC (c : Char) : Bool :=
  decide ((65 ≤ c.toNat ∧ c.toNat ≤ 90) ∨ (97 ≤ c.toNat ∧ c.toNat ≤ 122))

def isIdentC (c : Char) : Bool := isAlphaC c || isDigitC c || decide (c = '_')

/-- Split a character list at the first single quote: returns the
content before it and the remainder after it, or `none` if the input
ends first. -/
def splitQuote : List Char → Option (List Char × List Char)
  | [] => none
  | c :: r =>
    if c = '\'' then some ([], r)
    else (splitQuote r).map (fun t => (c :: t.1, t.2))

/-- Split at the first run of three consecutive single quotes. -/
def splitTriple : List Char → Option (List Char × List Char)
  | '\'' :: '\'' :: '\'' :: r => some ([], r)
  | [] => none
  | c :: r => (splitTriple r).map (fun t => (c :: t.1, t.2))

/-- Split at the first `*/` (block-comment terminator). -/
def splitStarSlash : List Char → Option (List Char × List Char)
  | '*' :: '/' :: r => some ([], r)
  | [] => none
  | c :: r => (splitStarSlash r).map (fun t => (c :: t.1, t.2))

/-- Modelled from the spec: the `leafbuild_syntax::lexer::Lexer` is not
among the sources (only its caller `parser.rs` is).  §4.1 fixes its
rules: single-character punctuation; greedy two-character `=`-suffixed /
compound operators (`+=`, `==`, `>=`, `<=`, `!=`, `<<`, `>>`) before the
one-character forms; identifiers `[A-Za-z_][A-Za-z0-9_]*` with keywords;
hex/octal/decimal numbers; `'`-quoted strings, `''` empty, `'''`
multiline; whitespace-other-than-newline and comments as trivia tokens;
`\n` its own kind; anything else an error token that still advances.  An
unterminated string becomes an error token covering the rest of the
input (it must appear in the stream: the token texts partition the
source).  `pos` is a byte offset. -/
def lexGo : Nat → Nat → List Char → List RawTok
  | 0, _, _ => []
  | _, _, [] => []
  | fuel + 1, pos, c :: rest =>
    let one := fun (k : SyntaxKind) (txt : String) =>
      let n := utf8Len txt.data
      RawTok.mk k txt ⟨pos, pos + n⟩ :: lexGo fuel (pos + n) rest
    let two := fun (k : SyntaxKind) (txt : String) (r2 : List Char) =>
      let n := utf8Len txt.data
      RawTok.mk k txt ⟨pos, pos + n⟩ :: lexGo fuel (pos + n) r2
    if c = '\n' then one NEWLINE "\n"
    else if isWsNotNl c then
      let run := rest.takeWhile isWsNotNl
      two WHITESPACE (String.mk (c :: run)) (rest.drop run.length)
    else if c = '(' then one L_PAREN "("
    else if c = ')' then one R_PAREN ")"
    else if c = '[' then one L_BRACKET "["
    else if c = ']' then one R_BRACKET "]"
    else if c = '\x7b' then one L_BRACE "\x7b"
    else if c = '\x7d' then one R_BRACE "\x7d"
    else if c = '.' then one DOT "."
    else if c = ':' then one COLON ":"
    else if c = '?' then one QMARK "?"
    else if c = ';' then one SEMICOLON ";"
    else if c = ',' then one COMMA ","
    else if c = '~' then one TILDE "~"
    else if c = '+' then
      match rest with
      | '=' :: r2 => two PLUS_EQ "+=" r2
      | _ => one PLUS "+"
    else if c = '-' then
      match rest with
      | '=' :: r2 => two MINUS_EQ "-=" r2
      | _ => one MINUS "-"
    else if c = '*' then
      match rest with
      | '=' :: r2 => two MUL_EQ "*=" r2
      | _ => one ASTERISK "*"
    else if c = '/' then
      match rest with
      | '=' :: r2 => two DIV_EQ "/=" r2
      | '/' :: r2 =>
        let run := r2.takeWhile (fun ch => !(ch = '\n'))
        two LINE_COMMENT (String.mk ('/' :: '/' :: run)) (r2.drop run.length)
      | '*' :: r2 =>
        match splitStarSlash r2 with
        | some (content, r3) =>
          two BLOCK_COMMENT
            (String.mk ('/' :: '*' :: (content ++ ['*', '/']))) r3
        | none => two ERROR (String.mk ('/' :: '*' :: r2)) []
      | _ => one SLASH "/"
    else if c = '%' then
      match rest with
      | '=' :: r2 => two MOD_EQ "%=" r2
      | _ => one PERCENT "%"
    else if c = '=' then
      match rest with
      | '=' :: r2 => two EQ_EQ "==" r2
      | _ => one EQ "="
    else if c = '!' then
      match rest with
      | '=' :: r2 => two NOT_EQ "!=" r2
      | _ => one ERROR "!"
    else if c = '<' then
      match rest with
      | '=' :: r2 => two LESS_EQ "<=" r2
      | '<' :: r2 => two SHIFT_LEFT "<<" r2
      | _ => one LESS "<"
    else if c = '>' then
      match rest with
      | '=' :: r2 => two GREATER_EQ ">=" r2
      | '>' :: r2 => two SHIFT_RIGHT ">>" r2
      | _ => one GREATER ">"
    else if isAlphaC c || c = '_' then
      let run := rest.takeWhile isIdentC
      let txt := String.mk (c :: run)
      two (kwKind txt) txt (rest.drop run.length)
    else if isDigitC c then
      match rest with
      | 'x' :: r2 =>
        if c = '0' then
          let run := r2.takeWhile isHexC
          two NUMBER (String.mk ('0' :: 'x' :: run)) (r2.drop run.length)
        else
          let run := rest.takeWhile isDigitC
          two NUMBER (String.mk (c :: run)) (rest.drop run.length)
      | _ =>
        let run := rest.takeWhile isDigitC
        two NUMBER (String.mk (c :: run)) (rest.drop run.length)
    else if c = '\'' then
      match rest with
      | '\'' :: '\'' :: r2 =>
        match splitTriple r2 with
        | some (content, r3) =>
          two MULTILINE_STRING
            (String.mk ('\'' :: '\'' :: '\'' :: (content ++ ['\'', '\'', '\''])))
            r3
        | none =>
          two ERROR (String.mk ('\'' :: '\'' :: '\'' :: r2)) []
      | '\'' :: r2 => two STRING "''" r2
      | _ =>
        match splitQuote rest with
        | some (content, r2) =>
          two STRING (String.mk ('\'' :: (content ++ ['\'']))) r2
        | none => two ERROR (String.mk ('\'' :: rest)) []
    else one ERROR (String.mk [c])

/-- Lex a source string into the raw token vector. -/
def lexTokens (text : String) : List RawTok :=
  lexGo (text.length + 1) 0 text.data

end Syn

namespace Syn

/-- A green-tree element: a leaf token or an interior node. -/
inductive GreenElem where
  | leaf (kind : SyntaxKind) (text : String)
  | node (kind : SyntaxKind) (children : List GreenElem)

/-- One open scope of the green-node builder: its kind (none for the
bottom buffer) and the children emitted so far, in order. -/
structure Frame where
  kind : Option SyntaxKind
  children : List GreenElem

/-- `rowan::GreenNodeBuilder`, for the well-nested checkpoint discipline
this parser uses (every checkpoint is taken and consumed at the same
nesting depth): a stack of open frames, top first. -/
structure Builder where
  stack : List Frame

/-- `GreenNodeBuilder::token`. -/
def tokenB (k : SyntaxKind) (t : String) (b : Builder) : Builder :=
  match b.stack with
  | [] => b
  | f :: r => ⟨{ f with children := f.children ++ [GreenElem.leaf k t] } :: r⟩

/-- `GreenNodeBuilder::start_node`. -/
def startNodeB (k : SyntaxKind) (b : Builder) : Builder :=
  ⟨⟨some k, []⟩ :: b.stack⟩

/-- `GreenNodeBuilder::finish_node`. -/
def finishNodeB (b : Builder) : Builder :=
  match b.stack with
  | f :: g :: r =>
    ⟨{ g with children :=
        g.children ++ [GreenElem.node (f.kind.getD SyntaxKind.ROOT) f.children] } :: r⟩
  | _ => b

/-- `GreenNodeBuilder::checkpoint`: the number of children already
emitted in the innermost open scope. -/
def checkpointB (b : Builder) : Nat :=
  match b.stack with
  | f :: _ => f.children.length
  | [] => 0

/-- `GreenNodeBuilder::start_node_at`: re-parent the children emitted
after the checkpoint under a new node. -/
def startNodeAtB (ck : Nat) (k : SyntaxKind) (b : Builder) : Builder :=
  match b.stack with
  | f :: r => ⟨⟨some k, f.children.drop ck⟩ :: ⟨f.kind, f.children.take ck⟩ :: r⟩
  | [] => b

/-- `GreenNodeBuilder::finish`: the single tree accumulated in the
bottom buffer. -/
def finishB (b : Builder) : GreenElem :=
  match b.stack with
  | [f] => (f.children.head?).getD (GreenElem.node SyntaxKind.ROOT [])
  | _ => GreenElem.node SyntaxKind.ROOT []

/-- `struct Parser`: the fixed raw token vector, the meaningful-token
index, the two cursors, the builder and the diagnostics. -/
structure PSt where
  tokens : List RawTok
  meaningful : List (SyntaxKind × Nat)
  index : Nat
  mIndex : Nat
  builder : Builder
  errors : List (String × Span)

/-- `enum ParseError` of the source. -/
inductive ParseError where
  | eof
  | incomplete
  | genErr (msg : String) (sp : Span)
  | unexpectedTok (name : String) (sp : Span)
  | expectedTok (name : String) (sp : Span) (found : String)
  | expectedToks (names : List String) (sp : Span)

/-- The parser computations: state in, `Result<T, ParseError>` out.
`none` models divergence/panics, used only for recursion fuel running
out and for the source's `unreachable!()` arm. -/
def PM (α : Type) : Type := PSt → Option (Except ParseError α × PSt)

instance : Monad PM where
  pure a := fun s => some (Except.ok a, s)
  bind m f := fun s =>
    match m s with
    | none => none
    | some (Except.error e, s') => some (Except.error e, s')
    | some (Except.ok a, s') => f a s'

def throwP {α : Type} (e : ParseError) : PM α := fun s => some (Except.error e, s)

def getP : PM PSt := fun s => some (Except.ok s, s)

def readP {α : Type} (f : PSt → α) : PM α := fun s => some (Except.ok (f s), s)

def modifyP (f : PSt → PSt) : PM Unit := fun s => some (Except.ok (), f s)

/-- Run a computation and reify its result (the `match` on a
`ParseResult` the source performs in the root loop). -/
def attemptP {α : Type} (m : PM α) : PM (Except ParseError α) := fun s =>
  match m s with
  | none => none
  | some (r, s') => some (Except.ok r, s')

/-- `MapIncomplete::map_incomplete`: `Eof => Incomplete`. -/
def map_incomplete {α : Type} (m : PM α) : PM α := fun s =>
  match m s with
  | some (Except.error ParseError.eof, s') =>
    some (Except.error ParseError.incomplete, s')
  | x => x

/-- `Is::is` on `Option<SyntaxKind>`: `None` is never `is`. -/
def optIs (o : Option SyntaxKind) (k : SyntaxKind) : Bool :=
  match o with
  | some x => x = k
  | none => false

/-- `Is::isnt` on `Option<SyntaxKind>`: `None` is never `isnt` either
(`map_or(false, ..)`), so end of input passes neither test. -/
def optIsnt (o : Option SyntaxKind) (k : SyntaxKind) : Bool :=
  match o with
  | some x => !(x = k)
  | none => false

def kMem (k : SyntaxKind) (l : List SyntaxKind) : Bool := l.any (fun x => x = k)

def optIsAny (o : Option SyntaxKind) (l : List SyntaxKind) : Bool :=
  l.any (fun x => optIs o x)

/-- `Parser::current`. -/
def currentK (s : PSt) : Option SyntaxKind := (s.meaningful.get? s.mIndex).map (·.1)

/-- `Parser::current_span`. -/
def current_span (s : PSt) : Span :=
  match (s.meaningful.get? s.mIndex).map (·.2) with
  | some idx => ((s.tokens.get? idx).map (·.span)).getD ⟨0, 0⟩
  | none => ⟨0, 0⟩

/-- `Parser::current_raw`. -/
def current_raw (s : PSt) : Option SyntaxKind := (s.tokens.get? s.index).map (·.kind)

/-- `Parser::current_span_raw`. -/
def current_span_raw (s : PSt) : Span :=
  ((s.tokens.get? s.index).map (·.span)).getD ⟨0, 0⟩

/-- `Parser::next_nontrivia`. -/
def next_nontrivia (s : PSt) : Option SyntaxKind :=
  ((s.tokens.drop s.index).find? (fun t => !is_trivia t.kind)).map (·.kind)

/-- `Parser::next_nontrivia_lookahead` (raw lookahead from `index + 1`,
consuming nothing). -/
def next_nontrivia_lookahead (s : PSt) : Option SyntaxKind :=
  ((s.tokens.drop (s.index + 1)).find? (fun t => !is_trivia t.kind)).map (·.kind)

def modB (f : Builder → Builder) (s : PSt) : PSt := { s with builder := f s.builder }

/-- `Parser::bump_raw_to`: emit the raw tokens in `[index, newIndex)` as
leaves and move the raw cursor. -/
def bump_raw_to (newIndex : Nat) (s : PSt) : PSt :=
  let toks := (s.tokens.drop s.index).take (newIndex - s.index)
  { s with builder := toks.foldl (fun b t => tokenB t.kind t.text b) s.builder,
           index := newIndex }

/-- `Parser::bump`: advance one meaningful token; the consumed token and
its following trivia are emitted only if a next meaningful token
exists. -/
def bumpSt (s : PSt) : PSt :=
  let s := { s with mIndex := s.mIndex + 1 }
  match (s.meaningful.get? s.mIndex).map (·.2) with
  | some idx => bump_raw_to idx s
  | none => s

/-- `Parser::bump_last`. -/
def bump_lastSt (s : PSt) : PSt :=
  let s := match (s.meaningful.get? s.mIndex).map (·.2) with
    | some idx => bump_raw_to (idx + 1) s
    | none => s
  { s with mIndex := s.mIndex + 1 }

/-- `Parser::bump_raw`. -/
def bump_rawSt (s : PSt) : PSt :=
  match s.tokens.get? s.index with
  | none => s
  | some t =>
    let s := if (s.meaningful.get? (s.mIndex + 1)).map (·.2) = some s.index
      then { s with mIndex := s.mIndex + 1 } else s
    { s with builder := tokenB t.kind t.text s.builder, index := s.index + 1 }

/-- `Parser::error`: an empty `ERROR` placeholder leaf. -/
def errorTok (s : PSt) : PSt := modB (tokenB SyntaxKind.ERROR "") s

def pushErr (e : String × Span) (s : PSt) : PSt := { s with errors := s.errors ++ [e] }

def bumpP : PM Unit := modifyP bumpSt

def bump_lastP : PM Unit := modifyP bump_lastSt

/-- `Parser::bump_if`. -/
def bump_ifP (f : SyntaxKind → Bool) : PM Bool := fun s =>
  match currentK s with
  | some k => if f k then some (Except.ok true, bumpSt s) else some (Except.ok false, s)
  | none => some (Except.ok false, s)

/-- The `while current_raw().is_trivia() { bump_raw() }` loop of
`require_newline`, realised by iterating `bump_raw` once per leading
trivia token. -/
def skipTriviaRaw (s : PSt) : PSt :=
  bump_rawSt^[((s.tokens.drop s.index).takeWhile (fun t => is_trivia t.kind)).length] s

/-- `Parser::require_newline` (also `skip_trivia_and_single_newline`). -/
def require_newlineP : PM Unit := fun s =>
  let s := skipTriviaRaw s
  match current_raw s with
  | some SyntaxKind.NEWLINE => some (Except.ok (), bump_rawSt s)
  | some other =>
    some (Except.error (ParseError.unexpectedTok (token_name other)
      (current_span_raw s)), s)
  | none => some (Except.error ParseError.eof, s)

/-- `Parser::parse_single_tok`. -/
def parse_single_tokP (kind : SyntaxKind) : PM Unit := do
  let b ← bump_ifP (fun k => k = kind)
  if b then pure ()
  else do
    modifyP errorTok
    let s ← getP
    throwP (ParseError.expectedTok (token_name kind) (current_span s)
      (token_name ((currentK s).getD SyntaxKind.ERROR)))

/-- `Parser::parse_node`: open, run, close (also on error), propagate. -/
def parse_nodeP {α : Type} (kind : SyntaxKind) (m : PM α) : PM α := fun s =>
  match m (modB (startNodeB kind) s) with
  | none => none
  | some (r, s') => some (r, modB finishNodeB s')

/-- `Parser::parse_node_at`. -/
def parse_node_atP {α : Type} (ck : Nat) (kind : SyntaxKind) (m : PM α) : PM α :=
  fun s =>
    match m (modB (startNodeAtB ck kind) s) with
    | none => none
    | some (r, s') => some (r, modB finishNodeB s')

def checkpointP : PM Nat := fun s => some (Except.ok (checkpointB s.builder), s)

/-- `is_kexpr_start`: keyword-argument lookahead (one raw non-trivia
token past the current position, not consumed). -/
def is_kexpr_start (s : PSt) : Bool :=
  optIs (currentK s) SyntaxKind.ID
    && optIs (next_nontrivia_lookahead s) SyntaxKind.EQ

open SyntaxKind in
/-- Statement-starting tokens of the first `parse_statement` arm. -/
def exprStarts : List SyntaxKind :=
  [L_PAREN, L_BRACKET, L_BRACE, PLUS, MINUS, NOT_KW, TRUE_KW, FALSE_KW,
   NUMBER, ID, STRING, MULTILINE_STRING]

open SyntaxKind in
/-- Tokens `parse_statement` rejects as unable to start a statement. -/
def stmtBad : List SyntaxKind :=
  [R_PAREN, R_BRACKET, R_BRACE, PLUS_EQ, MINUS_EQ, MUL_EQ, DIV_EQ, MOD_EQ,
   ASTERISK, SLASH, PERCENT, EQ_EQ, GREATER_EQ, GREATER, LESS_EQ, LESS,
   NOT_EQ, EQ, SHIFT_LEFT, SHIFT_RIGHT, DOT, COLON, QMARK, SEMICOLON,
   COMMA, TILDE, AND_KW, OR_KW, IN_KW, FN_KW, ELSE_KW, ERROR]

open SyntaxKind in
def assignOps : List SyntaxKind := [PLUS_EQ, MINUS_EQ, MUL_EQ, DIV_EQ, MOD_EQ, EQ]

open SyntaxKind in
/-- Operator sets of the binary-precedence tiers (3 = tightest binary,
9 = loosest), as in `parse_precedence_3_expr` … `parse_precedence_9_expr`. -/
def levelOps : Nat → List SyntaxKind
  | 3 => [ASTERISK, SLASH, PERCENT]
  | 4 => [PLUS, MINUS]
  | 5 => [SHIFT_LEFT, SHIFT_RIGHT]
  | 6 => [LESS, LESS_EQ, GREATER, GREATER_EQ]
  | 7 => [EQ_EQ, NOT_EQ]
  | 8 => [AND_KW]
  | 9 => [OR_KW]
  | _ => []

/-- Element parser of a `parse_tt` delimited list (the closures the
source passes: `parse_expr`, `parse_farg`, `parse_statement`). -/
inductive TTElem where
  | tExpr
  | tFarg
  | tStmt

/-- The grammar functions of `parser.rs`, defunctionalised: one
constructor per function (plus one per `while` loop, holding the loop's
checkpoint where the source keeps one in a local). -/
inductive Rule where
  | langItem
  | stmt
  | expr
  | tupleE
  | arrayE
  | primary
  | strLit
  | exprBlock
  | decl
  | cond
  | condLoop
  | condBranch
  | feach
  | ctrl
  | prec (k : Nat)
  | p1Loop (ck : Nat)
  | binLoop (k : Nat) (ck : Nat)
  | fCall (ck : Nat)
  | idxE (ck : Nat)
  | farg
  | kexpr
  | tt (outer startTok : SyntaxKind) (sep : Option SyntaxKind)
       (endT : SyntaxKind) (elem : TTElem)
  | ttLoop (sep : Option SyntaxKind) (endT : SyntaxKind) (elem : TTElem)
  | rootLoop

open SyntaxKind in
/-- The recursive-descent interpreter: one arm per grammar function of
the source.  `fuel` only bounds the recursion depth; every theorem below
evaluates it on inputs where the source's recursion terminates. -/
def go : Nat → Rule → PM Unit
  | 0, _ => fun _ => none
  | fuel + 1, r =>
    match r with
    | Rule.langItem => go fuel Rule.stmt
    | Rule.stmt => do
      let c ← readP currentK
      match c with
      | none => throwP ParseError.eof
      | some tok =>
        if kMem tok exprStarts then do
          let ck ← checkpointP
          go fuel Rule.expr
          let c2 ← readP currentK
          if optIsAny c2 assignOps then
            parse_node_atP ck Assignment (do
              bumpP
              go fuel Rule.expr
              require_newlineP)
          else pure ()
        else if kMem tok stmtBad then do
          let sp ← readP current_span
          throwP (ParseError.unexpectedTok (token_name tok) sp)
        else if tok = LET_KW then go fuel Rule.decl
        else if tok = IF_KW then go fuel Rule.cond
        else if tok = FOREACH_KW then go fuel Rule.feach
        else if kMem tok [CONTINUE_KW, BREAK_KW, RETURN_KW] then go fuel Rule.ctrl
        else fun _ => none
    | Rule.expr => parse_nodeP Expr (go fuel (Rule.prec 9))
    | Rule.prec k =>
      if k = 1 then do
        let ck ← checkpointP
        go fuel Rule.primary
        go fuel (Rule.p1Loop ck)
      else if k = 2 then do
        let c ← readP currentK
        if optIsAny c [PLUS, MINUS] then
          parse_nodeP PrefixUnaryOpExpr (do
            bumpP
            go fuel (Rule.prec 2))
        else go fuel (Rule.prec 1)
      else do
        let ck ← checkpointP
        go fuel (Rule.prec (k - 1))
        go fuel (Rule.binLoop k ck)
    | Rule.binLoop k ck => do
      let c ← readP currentK
      if optIsAny c (levelOps k) then do
        parse_node_atP ck InfixBinOpExpr (do
          bumpP
          go fuel (Rule.prec (k - 1)))
        go fuel (Rule.binLoop k ck)
      else pure ()
    | Rule.p1Loop ck => do
      let c ← readP currentK
      if optIsAny c [L_PAREN, L_BRACKET] then do
        (if optIs c L_PAREN then go fuel (Rule.fCall ck)
         else if optIs c L_BRACKET then go fuel (Rule.idxE ck)
         else pure ())
        go fuel (Rule.p1Loop ck)
      else pure ()
    | Rule.fCall ck => parse_node_atP ck FuncCallExpr
        (go fuel (Rule.tt FuncCallArgs L_PAREN (some COMMA) R_PAREN TTElem.tFarg))
    | Rule.idxE ck => parse_node_atP ck IndexedExpr
        (parse_nodeP IndexedExprBrackets (do
          bumpP
          go fuel Rule.expr
          parse_single_tokP R_BRACKET))
    | Rule.farg => do
      let s ← getP
      if is_kexpr_start s then go fuel Rule.kexpr else go fuel Rule.expr
    | Rule.kexpr => parse_nodeP KExpr (do
        bumpP
        parse_single_tokP EQ
        go fuel Rule.expr)
    | Rule.primary => parse_nodeP PrimaryExpr (do
        let c ← readP currentK
        if optIs c L_BRACKET then go fuel Rule.arrayE
        else if optIs c L_PAREN then go fuel Rule.tupleE
        else if optIs c IF_KW then go fuel Rule.cond
        else if optIs c L_BRACE then go fuel Rule.exprBlock
        else if optIsAny c [NUMBER, ID] then bump_lastP
        else if optIsAny c [STRING, MULTILINE_STRING] then go fuel Rule.strLit
        else do
          modifyP errorTok
          match c with
          | none => throwP ParseError.eof
          | some t => do
            let sp ← readP current_span
            throwP (ParseError.unexpectedTok (token_name t) sp))
    | Rule.strLit => parse_nodeP StrLit bump_lastP
    | Rule.tupleE => go fuel (Rule.tt TupleExpr L_PAREN (some COMMA) R_PAREN TTElem.tExpr)
    | Rule.arrayE => go fuel (Rule.tt ArrayLitExpr L_BRACKET (some COMMA) R_BRACKET TTElem.tExpr)
    | Rule.exprBlock => go fuel (Rule.tt ExprBlock L_BRACE none R_BRACE TTElem.tStmt)
    | Rule.tt outer _startTok sep endT elem => parse_nodeP outer (do
        bumpP
        go fuel (Rule.ttLoop sep endT elem)
        bump_lastP)
    | Rule.ttLoop sep endT elem => do
      let c ← readP currentK
      if optIsnt c endT then do
        map_incomplete (go fuel (match elem with
          | TTElem.tExpr => Rule.expr
          | TTElem.tFarg => Rule.farg
          | TTElem.tStmt => Rule.stmt))
        (match sep with
         | some sk => do
            let b ← bump_ifP (fun k => k = sk)
            let c2 ← readP currentK
            if !b && optIsnt c2 endT then do
              modifyP errorTok
              let sp ← readP current_span
              throwP (ParseError.expectedToks [token_name endT, token_name sk] sp)
            else pure ()
         | none => pure ())
        go fuel (Rule.ttLoop sep endT elem)
      else pure ()
    | Rule.decl => parse_nodeP Declaration (do
        bumpP
        map_incomplete (parse_single_tokP ID)
        map_incomplete (parse_single_tokP EQ)
        map_incomplete (go fuel Rule.expr)
        map_incomplete require_newlineP)
    | Rule.cond => parse_nodeP Conditional (do
        map_incomplete (go fuel Rule.condBranch)
        go fuel Rule.condLoop)
    | Rule.condLoop => do
      let c ← readP currentK
      if optIs c ELSE_KW then do
        bumpP
        let c2 ← readP currentK
        if optIs c2 IF_KW then do
          map_incomplete (go fuel Rule.condBranch)
          go fuel Rule.condLoop
        else map_incomplete (go fuel Rule.exprBlock)
      else pure ()
    | Rule.condBranch => parse_nodeP ConditionalBranch (do
        bumpP
        map_incomplete (go fuel Rule.expr)
        map_incomplete (go fuel Rule.exprBlock))
    | Rule.feach => parse_nodeP Foreach (do
        bumpP
        map_incomplete (go fuel Rule.expr)
        parse_single_tokP IN_KW
        map_incomplete (go fuel Rule.expr)
        map_incomplete (go fuel Rule.exprBlock))
    | Rule.ctrl => parse_nodeP ControlStatement (do
        let c ← readP currentK
        match c with
        | some CONTINUE_KW => do
          bumpP
          require_newlineP
        | some RETURN_KW | some BREAK_KW => do
          bumpP
          let nn ← readP next_nontrivia
          if optIsnt nn NEWLINE then go fuel Rule.expr else pure ()
          require_newlineP
        | some t => do
          let sp ← readP current_span
          throwP (ParseError.unexpectedTok (token_name t) sp)
        | none => throwP ParseError.incomplete)
    | Rule.rootLoop => do
      let r ← attemptP (go fuel Rule.langItem)
      match r with
      | Except.ok _ => go fuel Rule.rootLoop
      | Except.error ParseError.eof => pure ()
      | Except.error ParseError.incomplete => do
        modifyP (pushErr ("incomplete", ⟨0, 0⟩))
        go fuel Rule.rootLoop
      | Except.error (ParseError.genErr m sp) => modifyP (pushErr (m, sp))
      | Except.error (ParseError.unexpectedTok t sp) =>
        modifyP (pushErr ("unexpected `" ++ t ++ "`", sp))
      | Except.error (ParseError.expectedTok t sp found) =>
        modifyP (pushErr ("expected token " ++ t ++ ", found token " ++ found, sp))
      | Except.error (ParseError.expectedToks ts sp) =>
        modifyP (pushErr ("expected one of \x7b" ++ String.intercalate ", " ts
          ++ "\x7d", sp))

/-- The initial parser state `parse` builds: lex fully, index the
meaningful tokens. -/
def initSt (text : String) : PSt :=
  let tokens := lexTokens text
  { tokens := tokens,
    meaningful := tokens.enum.filterMap (fun p =>
      if is_meaningful p.2.kind then some (p.2.kind, p.1) else none),
    index := 0, mIndex := 0,
    builder := ⟨[⟨none, []⟩]⟩, errors := [] }

/-- `parse(text)`: run the root loop inside the `ROOT` node and finish
the builder.  Returns the green tree and the diagnostics, or `none` if
`fuel` is insufficient for the recursion depth. -/
def parseWith (fuel : Nat) (text : String) :
    Option (GreenElem × List (String × Span)) :=
  match parse_nodeP SyntaxKind.ROOT (go fuel Rule.rootLoop) (initSt text) with
  | none => none
  | some (_, s) => some (finishB s.builder, s.errors)

end Syn

namespace Syn

open SyntaxKind

/-- Shorthand for a `PrimaryExpr` node holding one number leaf. -/
def pnum (t : String) : GreenElem :=
  GreenElem.node PrimaryExpr [GreenElem.leaf NUMBER t]

/-- A single-space whitespace leaf. -/
def wsL : GreenElem := GreenElem.leaf WHITESPACE " "

/-- The expected tree of `"1 op 2 op 3"` when an operator tier chains
left-associatively: the outer `InfixBinOpExpr` has the inner
`InfixBinOpExpr` (over `1 op 2`) as its first child. -/
def chain3 (k : SyntaxKind) (t : String) : GreenElem :=
  GreenElem.node ROOT [GreenElem.node Expr [GreenElem.node InfixBinOpExpr
    [GreenElem.node InfixBinOpExpr
      [pnum "1", wsL, GreenElem.leaf k t, wsL, pnum "2"],
     wsL, GreenElem.leaf k t, wsL, pnum "3"]]]

/-- The expected tree of `"1 op 2 op 3 op 4"` under left association. -/
def chain4 (k : SyntaxKind) (t : String) : GreenElem :=
  GreenElem.node ROOT [GreenElem.node Expr [GreenElem.node InfixBinOpExpr
    [GreenElem.node InfixBinOpExpr
      [GreenElem.node InfixBinOpExpr
        [pnum "1", wsL, GreenElem.leaf k t, wsL, pnum "2"],
       wsL, GreenElem.leaf k t, wsL, pnum "3"],
     wsL, GreenElem.leaf k t, wsL, pnum "4"]]]

end Syn

namespace LLex

/-- Unbounded (mathematical) digit accumulation, for comparison with the
wrapped accumulation the code performs. -/
def accD (base : Nat) (dv : Char → Nat) (ds : List Char) (a : Nat) : Nat :=
  ds.foldl (fun x c => x * base + dv c) a

end LLex

namespace LLex

/-- Wrapped accumulation equals unbounded accumulation reduced mod 2^32:
the per-step `% M` of the digit loops commutes with the whole fold. -/
theorem numLoop_mod (len base : Nat) (test : Char → Bool) (dv : Char → Nat) :
    ∀ (ps : List (Nat × Char)) (a : Nat), (∀ q ∈ ps, test q.2 = true) →
      numLoop len test dv base ps (a % M)
        = (accD base dv (ps.map Prod.snd) a % M, len, [])
  | [], a, _ => by simp [numLoop, accD]
  | (p, c) :: r, a, h => by
    have hc : test c = true := h (p, c) (List.mem_cons_self _ _)
    have hr : ∀ q ∈ r, test q.2 = true := fun q hq => h q (List.mem_cons_of_mem _ hq)
    have hm : (a % M * base + dv c) % M = (a * base + dv c) % M :=
      ((Nat.mod_modEq a M).mul_right base).add_right (dv c)
    have ih := numLoop_mod len base test dv r (a * base + dv c) hr
    simp only [numLoop, hc, if_true, accD, List.map_cons, List.foldl_cons]
    rw [hm]
    exact ih

end LLex

/-- C9: every numeric literal (hexadecimal, octal, decimal) is
accumulated with `i32` wraparound — the produced `Number` token carries
the unbounded digit value reduced modulo 2^32, no overflow error or
diagnostic is raised, and lexing still yields a `Number` token.
(Wrapping is the release-profile semantics of the `num * b + d`
accumulation; a debug build would panic instead.) -/
theorem c9_numeric_literal_wraps :
    (∀ (len pos i : Nat) (ps : List (Nat × Char)),
      (∀ q ∈ ps, LLex.isAsciiHexDigit q.2 = true) →
      LLex.parse_number len ((i, 'x') :: ps) pos '0'
        = (LLex.Step.tok pos
            (LLex.Tok.number
              (LLex.accD 16 LLex.hexdigit_value (ps.map Prod.snd) 0 % LLex.M)
              ⟨pos, len⟩) len, []))
    ∧ (∀ (len pos i : Nat) (c : Char) (ps : List (Nat × Char)),
      LLex.isOctDigit c = true → (∀ q ∈ ps, LLex.isOctDigit q.2 = true) →
      LLex.parse_number len ((i, c) :: ps) pos '0'
        = (LLex.Step.tok pos
            (LLex.Tok.number
              (LLex.accD 8 LLex.octdigit_value (((i, c) :: ps).map Prod.snd) 0 % LLex.M)
              ⟨pos, len⟩) len, []))
    ∧ (∀ (len pos i : Nat) (c0 c : Char) (ps : List (Nat × Char)),
      49 ≤ c0.toNat → c0.toNat ≤ 57 →
      LLex.isAsciiDigit c = true → (∀ q ∈ ps, LLex.isAsciiDigit q.2 = true) →
      LLex.parse_number len ((i, c) :: ps) pos c0
        = (LLex.Step.tok pos
            (LLex.Tok.number
              (LLex.accD 10 LLex.decdigit_value (((i, c) :: ps).map Prod.snd)
                (LLex.decdigit_value c0) % LLex.M)
              ⟨pos, len⟩) len, [])) := by
  refine ⟨fun len pos i ps hps => ?_, fun len pos i c ps hc hps => ?_,
    fun len pos i c0 c ps h49 h57 hc hps => ?_⟩
  · have h := LLex.numLoop_mod len 16 LLex.isAsciiHexDigit LLex.hexdigit_value ps 0 hps
    rw [Nat.zero_mod] at h
    simp [LLex.parse_number, h]
  · have hall : ∀ q ∈ (i, c) :: ps, LLex.isOctDigit q.2 = true := by
      intro q hq
      rcases List.mem_cons.mp hq with h | h
      · rw [h]; exact hc
      · exact hps q h
    have h := LLex.numLoop_mod len 8 LLex.isOctDigit LLex.octdigit_value
      ((i, c) :: ps) 0 hall
    rw [Nat.zero_mod] at h
    have hcx : ¬ (c = 'x') := by
      intro hx
      rw [hx] at hc
      exact absurd hc (by decide)
    simp [LLex.parse_number, hcx, h]
  · have hall : ∀ q ∈ (i, c) :: ps, LLex.isAsciiDigit q.2 = true := by
      intro q hq
      rcases List.mem_cons.mp hq with h | h
      · rw [h]; exact hc
      · exact hps q h
    have hlt : LLex.decdigit_value c0 < LLex.M := by
      unfold LLex.decdigit_value LLex.M
      omega
    have h := LLex.numLoop_mod len 10 LLex.isAsciiDigit LLex.decdigit_value
      ((i, c) :: ps) (LLex.decdigit_value c0) hall
    rw [Nat.mod_eq_of_lt hlt] at h
    have hne : ¬ (c0 = '0') := by
      intro h0
      rw [h0] at h49
      exact absurd h49 (by decide)
    simp [LLex.parse_number, hne, h]

/-- Witness for C9: the hexadecimal literal `0x100000000` (mathematical
value 2^32, exceeding the i32 width) lexes to a `Number` token of
wrapped value 0, with no error. -/
theorem c9_numeric_literal_wraps_witness :
    (∀ q ∈ ([(2, '1'), (3, '0'), (4, '0'), (5, '0'), (6, '0'), (7, '0'),
             (8, '0'), (9, '0'), (10, '0')] : List (Nat × Char)),
      LLex.isAsciiHexDigit q.2 = true)
    ∧ LLex.parse_number 11
        ((1, 'x') :: [(2, '1'), (3, '0'), (4, '0'), (5, '0'), (6, '0'),
          (7, '0'), (8, '0'), (9, '0'), (10, '0')]) 0 '0'
        = (LLex.Step.tok 0 (LLex.Tok.number 0 ⟨0, 11⟩) 11, []) := by
  refine ⟨by decide, ?_⟩
  have h := c9_numeric_literal_wraps.1 11 0 1
    [(2, '1'), (3, '0'), (4, '0'), (5, '0'), (6, '0'), (7, '0'),
     (8, '0'), (9, '0'), (10, '0')] (by decide)
  exact h.trans (by decide)

/-- C10: lexing the input `"'''abc"` — an unterminated triple-quoted
multiline string — makes `Lexer::next` unwrap the `None` of an exhausted
character iterator: the modelled run ends in the panic outcome instead
of a token or a lexical error, so `next` is not total on such inputs. -/
theorem c10_multiline_panics :
    LLex.lexString "'''abc" = [LLex.Step.panicked]
    ∧ (LLex.lexNext 6 (LLex.charIndices "'''abc")).1 = LLex.Step.panicked :=
  ⟨rfl, rfl⟩

/-- C4 (against the claim): the input `"'abc"` does NOT produce a
lexical error — the single-quote branch collects the rest of the input
as string content, its trailing `chars.next()` silently observes the
exhausted iterator, and the lexer yields an `Ok` `Str("abc")` token
whose recorded end offset (5) even exceeds the input length (4).  The
`StringStartedButNotEnded` error the claim describes fires only when the
input ends immediately after the opening quote. -/
theorem c4_unterminated_string_not_reported :
    LLex.lexString "'abc" = [LLex.Step.tok 0 (LLex.Tok.str "abc" ⟨0, 5⟩) 5]
    ∧ LLex.lexString "'"
      = [LLex.Step.err (LLex.LexicalError.stringStartedButNotEnded 0)] :=
  ⟨rfl, rfl⟩

/-- C5 (against the claim): `hexdigit_value` maps `'a'..'f'` to `0..5`
and `'A'..'F'` to `0..5` — the `+ 10` is missing — so the literal `0xa`
lexes to `Number 0` where the claim requires 10, and `0xff` lexes to
`Number (5*16+5) = Number 85` instead of 255. -/
theorem c5_hexdigit_value_wrong :
    LLex.hexdigit_value 'a' = 0
    ∧ LLex.hexdigit_value 'f' = 5
    ∧ LLex.hexdigit_value 'A' = 0
    ∧ LLex.lexString "0xa" = [LLex.Step.tok 0 (LLex.Tok.number 0 ⟨0, 3⟩) 3]
    ∧ LLex.lexString "0xff" = [LLex.Step.tok 0 (LLex.Tok.number 85 ⟨0, 4⟩) 4] :=
  ⟨rfl, rfl, rfl, rfl, rfl⟩

/-- C6 (counterexample): lexing `"=="` yields two single-equals tokens,
not one equals-equals token — the `'='` arm of `Lexer::next` returns
`Tok::Eq` immediately without peeking for a second `'='` (indeed the
token enumeration has no equals-equals variant at all). -/
theorem c6_counterexample_double_eq :
    LLex.lexString "==" = [LLex.Step.tok 0 (LLex.Tok.eq ⟨0, 1⟩) 1,
                           LLex.Step.tok 1 (LLex.Tok.eq ⟨1, 2⟩) 2] :=
  rfl

/-- C6 (amended): greedy `=`-suffix matching holds exactly for the five
arithmetic operator characters `+ - * / %` (compound form attempted
first, single-character form otherwise); the `=` character always lexes
as a single `Eq` token, so `"=="` gives two of them, and the characters
`<`, `>`, `!` are not operators at all — each is an unrecognized-token
lexical error. -/
theorem c6_amended_greedy_arith_only :
    LLex.lexString "+=" = [LLex.Step.tok 0 (LLex.Tok.addEq ⟨0, 2⟩) 2]
    ∧ LLex.lexString "+" = [LLex.Step.tok 0 (LLex.Tok.add ⟨0, 1⟩) 1]
    ∧ LLex.lexString "-=" = [LLex.Step.tok 0 (LLex.Tok.subEq ⟨0, 2⟩) 2]
    ∧ LLex.lexString "-" = [LLex.Step.tok 0 (LLex.Tok.sub ⟨0, 1⟩) 1]
    ∧ LLex.lexString "*=" = [LLex.Step.tok 0 (LLex.Tok.mulEq ⟨0, 2⟩) 2]
    ∧ LLex.lexString "*" = [LLex.Step.tok 0 (LLex.Tok.mul ⟨0, 1⟩) 1]
    ∧ LLex.lexString "/=" = [LLex.Step.tok 0 (LLex.Tok.divEq ⟨0, 2⟩) 2]
    ∧ LLex.lexString "/" = [LLex.Step.tok 0 (LLex.Tok.div ⟨0, 1⟩) 1]
    ∧ LLex.lexString "%=" = [LLex.Step.tok 0 (LLex.Tok.modEq ⟨0, 2⟩) 2]
    ∧ LLex.lexString "%" = [LLex.Step.tok 0 (LLex.Tok.mod ⟨0, 1⟩) 1]
    ∧ LLex.lexString "=" = [LLex.Step.tok 0 (LLex.Tok.eq ⟨0, 1⟩) 1]
    ∧ LLex.lexString "==" = [LLex.Step.tok 0 (LLex.Tok.eq ⟨0, 1⟩) 1,
                             LLex.Step.tok 1 (LLex.Tok.eq ⟨1, 2⟩) 2]
    ∧ LLex.lexString "<" = [LLex.Step.err (LLex.LexicalError.unrecognizedToken 0)]
    ∧ LLex.lexString ">" = [LLex.Step.err (LLex.LexicalError.unrecognizedToken 0)]
    ∧ LLex.lexString "!" = [LLex.Step.err (LLex.LexicalError.unrecognizedToken 0)] :=
  ⟨rfl, rfl, rfl, rfl, rfl, rfl, rfl, rfl, rfl, rfl, rfl, rfl, rfl, rfl, rfl⟩

open Syn SyntaxKind in
/-- C1 (against the claim): losslessness fails.  For the input `" "`
the lexer produces one WHITESPACE token, yet the parsed tree is an
empty `ROOT` node — the trailing trivia is never emitted as a leaf, so
the concatenation of leaf texts is `""`, not `" "`.  Likewise for `"+"`
the consumed PLUS token itself is dropped (`bump` emits only up to the
next meaningful token, and there is none), leaving only the empty
`ERROR` placeholder leaf. -/
theorem c1_losslessness_fails :
    lexTokens " " = [⟨WHITESPACE, " ", ⟨0, 1⟩⟩]
    ∧ parseWith 32 " " = some (GreenElem.node ROOT [], [])
    ∧ lexTokens "+" = [⟨PLUS, "+", ⟨0, 1⟩⟩]
    ∧ parseWith 32 "+"
      = some (GreenElem.node ROOT [GreenElem.node Expr
          [GreenElem.node PrefixUnaryOpExpr
            [GreenElem.node PrimaryExpr [GreenElem.leaf ERROR ""]]]], []) :=
  ⟨rfl, rfl, rfl, rfl⟩

open Syn SyntaxKind in
/-- C2 (against the claim): the input `"x = a\n[1]\n"` parses as ONE
top-level statement — an assignment whose right-hand side is the
indexing expression `a[1]` spanning the newline — plus one diagnostic.
The postfix call/index loop consults only the meaningful-token index,
in which newlines do not exist, so it happily reaches across the
statement-terminating newline. -/
theorem c2_postfix_crosses_newline :
    (parseWith 64 "x = a\n[1]\n").map Prod.fst
      = some (GreenElem.node ROOT [GreenElem.node Assignment
          [GreenElem.node Expr [GreenElem.node PrimaryExpr [GreenElem.leaf ID "x"]],
           wsL, GreenElem.leaf EQ "=", wsL,
           GreenElem.node Expr [GreenElem.node IndexedExpr
             [GreenElem.node PrimaryExpr [GreenElem.leaf ID "a"],
              GreenElem.node IndexedExprBrackets
                [GreenElem.leaf NEWLINE "\n", GreenElem.leaf L_BRACKET "[",
                 GreenElem.node Expr [GreenElem.node PrimaryExpr
                   [GreenElem.leaf NUMBER "1"]]]]]]])
    ∧ (parseWith 64 "x = a\n[1]\n").map (fun p => p.2.length) = some 1 :=
  ⟨rfl, rfl⟩

open Syn in
/-- C3 (counterexample): the input `"f(1"` — end of input while the
call-argument list is structurally open — produces NO diagnostic at
all: `Option::isnt` returns `false` at end of input, so the
`while current().isnt(end_tok)` loop of `parse_tt` treats exhaustion
like the closing terminator and the list "finishes" silently. -/
theorem c3_counterexample_no_incomplete :
    (parseWith 64 "f(1").map Prod.snd = some [] :=
  rfl

open Syn in
/-- C3 (amended): an end-of-input hit while an ELEMENT of a delimited
list (or the body of a declaration or similar construct) is mid-flight
is converted one level up to an "incomplete" diagnostic — `"f(1+"` and
`"let x = 1"` each record exactly one — but an end-of-input at a list
boundary (right after the opener, a separator, or a completed element)
ends the list with no diagnostic at all, as `"f(1"` shows. -/
theorem c3_incomplete_only_mid_element :
    (parseWith 64 "f(1+").map Prod.snd = some [("incomplete", ⟨0, 0⟩)]
    ∧ (parseWith 64 "let x = 1").map Prod.snd = some [("incomplete", ⟨0, 0⟩)]
    ∧ (parseWith 64 "f(1").map Prod.snd = some [] :=
  ⟨rfl, rfl, rfl⟩

open Syn SyntaxKind in
/-- C7: at every binary-operator precedence tier, operator chains parse
left-associatively — for a representative operator of each of the seven
binary tiers (3: `*`, 4: `-`, 5: `<<`, 6: `<`, 7: `==`, 8: `and`,
9: `or`), `"1 op 2 op 3"` produces the shape `((1 op 2) op 3)`: the
outer `InfixBinOpExpr` node has the inner one as its first child.  A
length-four chain nests the same way.  (In the embedding, as in the
source, all seven tiers run the single `parse_infix_binop` loop, which
re-wraps the checkpoint taken before the first operand.) -/
theorem c7_left_associative_tiers :
    parseWith 64 "1 * 2 * 3" = some (chain3 ASTERISK "*", [])
    ∧ parseWith 64 "1 - 2 - 3" = some (chain3 MINUS "-", [])
    ∧ parseWith 64 "1 << 2 << 3" = some (chain3 SHIFT_LEFT "<<", [])
    ∧ parseWith 64 "1 < 2 < 3" = some (chain3 LESS "<", [])
    ∧ parseWith 64 "1 == 2 == 3" = some (chain3 EQ_EQ "==", [])
    ∧ parseWith 64 "1 and 2 and 3" = some (chain3 AND_KW "and", [])
    ∧ parseWith 64 "1 or 2 or 3" = some (chain3 OR_KW "or", [])
    ∧ parseWith 64 "1 - 2 - 3 - 4" = some (chain4 MINUS "-", []) :=
  ⟨rfl, rfl, rfl, rfl, rfl, rfl, rfl, rfl⟩

open Syn SyntaxKind in
/-- C8: a call argument is keyword-form iff its leading token is an
identifier whose next non-trivia token is `=`, decided by unconsumed
lookahead: `f(1, name = 2)` yields one positional argument `1` and one
`KExpr` keyword argument `name = 2` (the identifier is still present
inside the `KExpr`), while `f(name)` yields a single positional
bare-identifier argument and no `KExpr`; both parse without
diagnostics. -/
theorem c8_keyword_argument_lookahead :
    parseWith 64 "f(1, name = 2)"
      = some (GreenElem.node ROOT [GreenElem.node Expr
          [GreenElem.node FuncCallExpr
            [GreenElem.node PrimaryExpr [GreenElem.leaf ID "f"],
             GreenElem.node FuncCallArgs
               [GreenElem.leaf L_PAREN "(",
                GreenElem.node Expr [pnum "1"],
                GreenElem.leaf COMMA ",", wsL,
                GreenElem.node KExpr
                  [GreenElem.leaf ID "name", wsL, GreenElem.leaf EQ "=", wsL,
                   GreenElem.node Expr [pnum "2"]],
                GreenElem.leaf R_PAREN ")"]]]], [])
    ∧ parseWith 64 "f(name)"
      = some (GreenElem.node ROOT [GreenElem.node Expr
          [GreenElem.node FuncCallExpr
            [GreenElem.node PrimaryExpr [GreenElem.leaf ID "f"],
             GreenElem.node FuncCallArgs
               [GreenElem.leaf L_PAREN "(",
                GreenElem.node Expr [GreenElem.node PrimaryExpr
                  [GreenElem.leaf ID "name"]],
                GreenElem.leaf R_PAREN ")"]]]], []) :=
  ⟨rfl, rfl⟩
